import Mathlib

/- A shallow embedding of the class-layout modeling engine described by the
   repository specification, instantiated on the IDA-dump fixture
   src/resources/sample-ida-dump-cSetInfoOmBreakTarget.h.  The engine itself
   (Type Catalog, Class Descriptor Graph, Layout Resolver, Vtable Slot
   Allocator, Layout Validator) is specified but not shipped in src/, so every
   engine definition below is modelled from the specification text; the fixture
   descriptors are translated from the shipped sample header. -/

namespace LayoutEngine

/-- Modelled from the spec: a FieldType identifies a primitive or composite
kind with a fixed size and alignment pair, owned by the Type Catalog. -/
structure FieldType where
  size : Nat
  alignment : Nat
deriving DecidableEq

/-- Modelled from the spec: the Type Catalog, a registry of field types keyed
by identity, built in registration order. -/
abbrev TypeCatalog := List (String × FieldType)

/-- Modelled from the spec: Type Catalog lookup of a registered type by
identity. -/
def lookupType : TypeCatalog → String → Option FieldType
  | [], _ => none
  | (n, ft) :: rest, key => if n = key then some ft else lookupType rest key

/-- Modelled from the spec: a Field is a name together with the identity of
its FieldType; declaration order is the position in the descriptor list. -/
structure Field where
  name : String
  type : String
deriving DecidableEq

/-- Modelled from the spec: a ClassDescriptor names its optional direct base,
its ordered declared fields, an optional forced alignment, whether it
introduces a vtable, and its attached type-descriptor identities. -/
structure ClassDescriptor where
  identity : String
  base : Option String
  fields : List Field
  alignOverride : Option Nat
  introducesVtable : Bool
  typeDescriptors : List String
deriving DecidableEq

/-- Modelled from the spec: the Class Descriptor Graph, kept in construction
order (base before derived). -/
abbrev Graph := List ClassDescriptor

/-- Modelled from the spec: a ResolvedLayout holds the total size, the
alignment, the mapping from field name to byte offset (inherited fields
included), and the vtable-pointer offset or its explicit absence. -/
structure ResolvedLayout where
  size : Nat
  alignment : Nat
  offsets : List (String × Nat)
  vptrOffset : Option Nat
deriving DecidableEq

/-- The mapping produced by resolution: class identity to resolved layout. -/
abbrev LayoutMap := List (String × ResolvedLayout)

/-- Modelled from the spec: the dispatch pointer occupies 8 bytes. -/
def ptrSize : Nat := 8

/-- Modelled from the spec: the dispatch pointer requires 8-byte alignment
(the scenario of a vtable-only root demands size 8 and alignment 8). -/
def ptrAlign : Nat := 8

/-- Round an offset up to the next multiple of an alignment. -/
def alignUp (off a : Nat) : Nat :=
  if a = 0 then off else ((off + a - 1) / a) * a

/-- Modelled from the spec: the single forward pass of the Layout Resolver
over the declared fields.  Each field offset is the running offset rounded up
to the field's required alignment, after which the running offset advances by
the field's size.  Fails when a field type is not in the catalog. -/
def layoutFields (cat : TypeCatalog) : List Field → Nat → Option (List (String × Nat) × Nat)
  | [], off => some ([], off)
  | f :: fs, off =>
    (lookupType cat f.type).bind fun ft =>
      (layoutFields cat fs (alignUp off ft.alignment + ft.size)).map fun pr =>
        ((f.name, alignUp off ft.alignment) :: pr.1, pr.2)

/-- The largest alignment required by any declared field (1 when there are no
fields; unknown types contribute 1 and are rejected elsewhere). -/
def naturalFieldAlign (cat : TypeCatalog) (fs : List Field) : Nat :=
  fs.foldr (fun f m => max (((lookupType cat f.type).map FieldType.alignment).getD 1) m) 1

/-- Size contributed by the base layout: 0 for a root. -/
def baseSize : Option ResolvedLayout → Nat
  | none => 0
  | some b => b.size

/-- Alignment required by the base layout: 1 for a root. -/
def baseAlign : Option ResolvedLayout → Nat
  | none => 1
  | some b => b.alignment

/-- Vtable-pointer offset inherited from the base layout, if any. -/
def inheritedVptr : Option ResolvedLayout → Option Nat
  | none => none
  | some b => b.vptrOffset

/-- Field offsets inherited from the base layout. -/
def inheritedOffsets : Option ResolvedLayout → List (String × Nat)
  | none => []
  | some b => b.offsets

/-- Modelled from the spec: the Vtable Slot Allocator decision of whether this
class introduces a fresh dispatch-pointer slot (it carries the flag and no
ancestor already placed one). -/
def introducesNewVptr (c : ClassDescriptor) (bl : Option ResolvedLayout) : Bool :=
  c.introducesVtable && (inheritedVptr bl).isNone

/-- Modelled from the spec: the seed offset of the field pass, the base's
resolved size shifted by the dispatch-pointer size when the class introduces
the hierarchy's vtable. -/
def seedOffset (c : ClassDescriptor) (bl : Option ResolvedLayout) : Nat :=
  baseSize bl + (if introducesNewVptr c bl then ptrSize else 0)

/-- Modelled from the spec: the dispatch-pointer slot of the class, at offset
0 when freshly introduced, otherwise reused from the base, otherwise absent. -/
def vptrSlot (c : ClassDescriptor) (bl : Option ResolvedLayout) : Option Nat :=
  if introducesNewVptr c bl then some 0 else inheritedVptr bl

/-- Modelled from the spec: the resolved alignment, the maximum of the
explicit override, the alignment required by the base, the largest alignment
required by any declared field, and the dispatch-pointer alignment when the
class introduces the hierarchy's vtable slot. -/
def classAlignment (cat : TypeCatalog) (c : ClassDescriptor) (bl : Option ResolvedLayout) : Nat :=
  max (c.alignOverride.getD 1)
    (max (baseAlign bl)
      (max (naturalFieldAlign cat c.fields)
        (if introducesNewVptr c bl then ptrAlign else 1)))

/-- Modelled from the spec: the alignment formula in the exact wording of the
invariant section, the maximum of the explicit override, the alignment
required by the base, and the largest alignment required by any declared
field, with no other contribution.  Kept separate so the claim wording can be
compared against the resolver. -/
def specAlignmentFormula (cat : TypeCatalog) (c : ClassDescriptor) (bl : Option ResolvedLayout) : Nat :=
  max (c.alignOverride.getD 1)
    (max (baseAlign bl) (naturalFieldAlign cat c.fields))

/-- Modelled from the spec: the Layout Resolver for one class, given the
resolved layout of its base (none for a root): seed the offset, place or
inherit the vtable slot, lay out the declared fields in declaration order,
then round the end offset up to the resolved alignment. -/
def resolveClass (cat : TypeCatalog) (c : ClassDescriptor) (bl : Option ResolvedLayout) :
    Option ResolvedLayout :=
  (layoutFields cat c.fields (seedOffset c bl)).map fun pr =>
    ⟨alignUp pr.2 (classAlignment cat c bl), classAlignment cat c bl,
     inheritedOffsets bl ++ pr.1, vptrSlot c bl⟩

/-- First layout recorded for a class identity in a layout map. -/
def lookupLayout : LayoutMap → String → Option ResolvedLayout
  | [], _ => none
  | (n, l) :: rest, key => if n = key then some l else lookupLayout rest key

/-- Modelled from the spec: the topological pass of the Layout Resolver over
the graph in construction order; a class whose base lookup is unresolved when
visited, or one of whose field types is unknown, aborts resolution of that
class only. -/
def resolveAux (cat : TypeCatalog) : Graph → LayoutMap → LayoutMap
  | [], acc => acc
  | c :: cs, acc =>
    match (match c.base with
           | none => some (none : Option ResolvedLayout)
           | some b =>
             match lookupLayout acc b with
             | none => none
             | some l => some (some l)) with
    | none => resolveAux cat cs acc
    | some bl =>
      match resolveClass cat c bl with
      | none => resolveAux cat cs acc
      | some l => resolveAux cat cs (acc ++ [(c.identity, l)])

/-- Modelled from the spec: resolve the whole graph into a layout mapping. -/
def resolve (cat : TypeCatalog) (g : Graph) : LayoutMap :=
  resolveAux cat g []

/-- Modelled from the spec: query API, total size of a resolved class. -/
def sizeOf (m : LayoutMap) (key : String) : Option Nat :=
  (lookupLayout m key).map ResolvedLayout.size

/-- Modelled from the spec: query API, alignment of a resolved class. -/
def alignmentOf (m : LayoutMap) (key : String) : Option Nat :=
  (lookupLayout m key).map ResolvedLayout.alignment

/-- Assoc lookup of a field offset by field name. -/
def lookupOffset : List (String × Nat) → String → Option Nat
  | [], _ => none
  | (n, o) :: rest, key => if n = key then some o else lookupOffset rest key

/-- Modelled from the spec: query API, byte offset of a field of a resolved
class, inherited fields included. -/
def offsetOf (m : LayoutMap) (key fieldName : String) : Option Nat :=
  (lookupLayout m key).bind (fun l => lookupOffset l.offsets fieldName)

/-- Modelled from the spec: query API, the vtable-pointer offset of a resolved
class, an explicit absence when no ancestor introduced one. -/
def vtableOffsetOf (m : LayoutMap) (key : String) : Option Nat :=
  (lookupLayout m key).bind ResolvedLayout.vptrOffset

/-- Strictly increasing list of naturals. -/
def strictIncr : List Nat → Bool
  | a :: b :: t => decide (a < b) && strictIncr (b :: t)
  | _ => true

/-- Monotonically non-decreasing list of naturals. -/
def monoNondecr : List Nat → Bool
  | a :: b :: t => decide (a ≤ b) && monoNondecr (b :: t)
  | _ => true

/-- Modelled from the spec: the error taxonomy. -/
inductive BuildError where
  | TypeConflict
  | UnknownBase
  | UnknownClass
  | DuplicateClass
  | DuplicateField
  | CycleDetected
  | AlignmentViolation
  | OverlappingFields
  | NonMonotonicOffsets
deriving DecidableEq

/-- Modelled from the spec: Type Catalog registration, idempotent by identity;
re-registering the same identity with different size or alignment is a
TypeConflict and leaves the catalog unchanged. -/
def register (cat : TypeCatalog) (key : String) (sz al : Nat) : TypeCatalog × Option BuildError :=
  match lookupType cat key with
  | some ft =>
    if ft.size = sz ∧ ft.alignment = al then (cat, none) else (cat, some BuildError.TypeConflict)
  | none => (cat ++ [(key, ⟨sz, al⟩)], none)

/-- Whether a class identity is present in the graph. -/
def hasClass (g : Graph) (key : String) : Bool :=
  g.any (fun c => c.identity = key)

/-- Whether two fields of the list share a name. -/
def dupNames : List Field → Bool
  | [] => false
  | f :: fs => fs.any (fun f2 => f2.name = f.name) || dupNames fs

/-- Whether every field type is registered in the catalog. -/
def fieldTypesKnown (cat : TypeCatalog) (fs : List Field) : Bool :=
  fs.all (fun f => (lookupType cat f.type).isSome)

/-- Modelled from the spec: a catalog is well formed when every registered
size and alignment is a positive integer. -/
def posTypes (cat : TypeCatalog) : Bool :=
  cat.all fun p => decide (0 < p.2.size) && decide (0 < p.2.alignment)

/-- Raw structural facts handed to the construction API. -/
structure RawClass where
  identity : String
  base : Option String
  fields : List Field
  alignOverride : Option Nat
  introducesVtable : Bool

/-- Modelled from the spec: graph construction.  Fails with DuplicateClass on
identity reuse, UnknownBase when the base is not already present, DuplicateField
when two fields share a name, and the UnknownBase type-lookup error when a
field type was never registered; every failure leaves the graph unchanged. -/
def addClass (cat : TypeCatalog) (g : Graph) (r : RawClass) : Graph × Option BuildError :=
  if hasClass g r.identity then (g, some BuildError.DuplicateClass)
  else if (match r.base with | some b => !(hasClass g b) | none => false) then
    (g, some BuildError.UnknownBase)
  else if dupNames r.fields then (g, some BuildError.DuplicateField)
  else if !(fieldTypesKnown cat r.fields) then (g, some BuildError.UnknownBase)
  else (g ++ [⟨r.identity, r.base, r.fields, r.alignOverride, r.introducesVtable, []⟩], none)

/-- Modelled from the spec: attach a type-descriptor marker to a class;
UnknownClass when the target is absent, and the marker has no layout
footprint. -/
def attachTypeDescriptor (g : Graph) (cid did : String) : Graph × Option BuildError :=
  if hasClass g cid then
    (g.map (fun c =>
      if c.identity = cid then
        ⟨c.identity, c.base, c.fields, c.alignOverride, c.introducesVtable,
         c.typeDescriptors ++ [did]⟩
      else c), none)
  else (g, some BuildError.UnknownClass)

/-- Modelled from the spec: the Layout Validator for one class.  An explicit
alignment override weaker than a contained field's natural requirement, or not
honoured by the resolved alignment, is an AlignmentViolation; offsets must be
monotonically non-decreasing. -/
def validateClass (cat : TypeCatalog) (c : ClassDescriptor) (l : ResolvedLayout) :
    List BuildError :=
  (match c.alignOverride with
   | some a =>
     if a < naturalFieldAlign cat c.fields ∨ l.alignment < a then
       [BuildError.AlignmentViolation]
     else []
   | none => []) ++
  (if monoNondecr (l.offsets.map Prod.snd) then [] else [BuildError.NonMonotonicOffsets])

/-- Modelled from the spec: the single forward pass of the Resolver written as
a relation, in the words of the claim: each field's offset equals the running
offset rounded up to that field's required alignment, after which the running
offset advances by that field's size. -/
def FieldPass (cat : TypeCatalog) : Nat → List Field → List (String × Nat) → Nat → Prop
  | off, [], own, endOff => own = [] ∧ endOff = off
  | off, f :: fs, own, endOff =>
    ∃ ft rest, lookupType cat f.type = some ft ∧
      own = (f.name, alignUp off ft.alignment) :: rest ∧
      FieldPass cat (alignUp off ft.alignment + ft.size) fs rest endOff

/- The fixture, translated from
   src/resources/sample-ida-dump-cSetInfoOmBreakTarget.h. -/

/-- Type Catalog of the fixture: fixed sizes and alignments of the primitive
and composite field types appearing in the sample header. -/
def fixtureCatalog : TypeCatalog :=
  [("bool", ⟨1, 1⟩), ("u16", ⟨2, 2⟩), ("u32", ⟨4, 4⟩), ("s32", ⟨4, 4⟩),
   ("MtString", ⟨8, 8⟩), ("MtFloat3", ⟨12, 4⟩)]

/-- MtObject: the root of the fixture hierarchy, introducing the vtable. -/
def MtObjectDesc : ClassDescriptor :=
  ⟨"MtObject", none, [], none, true, []⟩

/-- cSetInfo: derives from MtObject, declares nothing, carries a MyDTI type
descriptor. -/
def cSetInfoDesc : ClassDescriptor :=
  ⟨"cSetInfo", some "MtObject", [], none, false, ["MyDTI"]⟩

/-- cSetInfoCoord: derives from cSetInfo with an 8-byte alignment override,
declaring the name, position, angle, scale and index fields of the sample. -/
def cSetInfoCoordDesc : ClassDescriptor :=
  ⟨"cSetInfoCoord", some "cSetInfo",
   [⟨"mName", "MtString"⟩, ⟨"mPosition", "MtFloat3"⟩, ⟨"mAngle", "MtFloat3"⟩,
    ⟨"mScale", "MtFloat3"⟩, ⟨"mUnitID", "s32"⟩, ⟨"mAreaHitNo", "s32"⟩,
    ⟨"mVersion", "u32"⟩, ⟨"mTblIndex", "s32"⟩],
   some 8, false, []⟩

/-- cSetInfoOm: derives from cSetInfoCoord, declaring the scalar and boolean
fields of the sample. -/
def cSetInfoOmDesc : ClassDescriptor :=
  ⟨"cSetInfoOm", some "cSetInfoCoord",
   [⟨"mDisableEffect", "bool"⟩, ⟨"mDisableOnlyEffect", "bool"⟩,
    ⟨"mOpenFlag", "bool"⟩, ⟨"mEnableSyncLight", "bool"⟩, ⟨"mEnableZone", "bool"⟩,
    ⟨"mInitMtnNo", "u32"⟩, ⟨"mAreaMasterNo", "u32"⟩, ⟨"mAreaReleaseNo", "u16"⟩,
    ⟨"mAreaReleaseON", "bool"⟩, ⟨"mAreaReleaseOFF", "bool"⟩,
    ⟨"mWarpPointId", "u32"⟩, ⟨"mKeyNo", "u32"⟩, ⟨"mIsBreakLink", "bool"⟩,
    ⟨"mIsBreakQuest", "bool"⟩, ⟨"mBreakKind", "u16"⟩, ⟨"mBreakGroup", "u16"⟩,
    ⟨"mBreakID", "u16"⟩, ⟨"mQuestFlag", "u32"⟩, ⟨"mIsNoSbc", "bool"⟩,
    ⟨"mIsMyQuest", "bool"⟩],
   none, false, []⟩

/-- cSetInfoOmBreakTarget: derives from cSetInfoOm with an 8-byte alignment
override, declaring one u32 field and carrying a MyDTI type descriptor. -/
def cSetInfoOmBreakTargetDesc : ClassDescriptor :=
  ⟨"cSetInfoOmBreakTarget", some "cSetInfoOm", [⟨"mBreakHitNum", "u32"⟩],
   some 8, false, ["MyDTI"]⟩

/-- The fixture hierarchy in declaration order, base before derived. -/
def fixtureGraph : Graph :=
  [MtObjectDesc, cSetInfoDesc, cSetInfoCoordDesc, cSetInfoOmDesc,
   cSetInfoOmBreakTargetDesc]

/-- The resolved fixture. -/
def fixtureLayouts : LayoutMap :=
  resolve fixtureCatalog fixtureGraph

/-- The resolved layout of the fixture root MtObject. -/
def mtObjectLayout : ResolvedLayout := ⟨8, 8, [], some 0⟩

/-- Small demonstration class with two scalar fields and no base. -/
def demoTwoFieldDesc : ClassDescriptor :=
  ⟨"D2", none, [⟨"x", "u32"⟩, ⟨"y", "u16"⟩], none, false, []⟩

/-- Resolved layout of the two-field demonstration class. -/
def demoTwoFieldLayout : ResolvedLayout := ⟨8, 4, [("x", 0), ("y", 4)], none⟩

/-- Small demonstration class deriving from a one-field base. -/
def demoDerivedDesc : ClassDescriptor :=
  ⟨"D", some "B", [⟨"x", "u32"⟩], none, false, []⟩

/-- Resolved layout of the demonstration base. -/
def demoBaseLayout : ResolvedLayout := ⟨8, 8, [("a", 0)], none⟩

/-- Resolved layout of the demonstration derived class. -/
def demoDerivedLayout : ResolvedLayout := ⟨16, 8, [("a", 0), ("x", 8)], none⟩

/-- Demonstration class with an override weaker than its field's alignment. -/
def demoWeakOverrideDesc : ClassDescriptor :=
  ⟨"V", none, [⟨"x", "u32"⟩], some 1, false, []⟩

/-- Raw class whose single field has an unregistered type. -/
def demoUnknownFieldRaw : RawClass := ⟨"X", none, [⟨"a", "Unknown"⟩], none, false⟩

/-- Raw class reusing the identity of the fixture root. -/
def demoDuplicateRaw : RawClass := ⟨"MtObject", none, [], none, true⟩

/-- Rounding up never decreases an offset. -/
theorem le_alignUp (o a : Nat) : o ≤ alignUp o a := by
  unfold alignUp
  rcases a with _ | a2
  · simp
  · rw [if_neg (Nat.succ_ne_zero a2)]
    have hsub : o + (a2 + 1) - 1 = o + a2 := by omega
    rw [hsub, Nat.mul_comm]
    have h := Nat.div_add_mod (o + a2) (a2 + 1)
    have hr : (o + a2) % (a2 + 1) < a2 + 1 := Nat.mod_lt _ (Nat.succ_pos a2)
    generalize hq : (o + a2) / (a2 + 1) = q at h ⊢
    generalize hm : (a2 + 1) * q = m at h ⊢
    generalize hrr : (o + a2) % (a2 + 1) = r at h hr
    omega

/-- Rounding up to a positive alignment lands on a multiple of it. -/
theorem alignUp_mod (o a : Nat) (ha : 0 < a) : alignUp o a % a = 0 := by
  unfold alignUp
  rw [if_neg (Nat.pos_iff_ne_zero.mp ha)]
  exact Nat.mul_mod_left _ a

/-- Rounding up a value already on a multiple of a positive alignment is the
identity. -/
theorem alignUp_of_mod_eq (o a : Nat) (ha : 0 < a) (h : o % a = 0) : alignUp o a = o := by
  unfold alignUp
  rw [if_neg (Nat.pos_iff_ne_zero.mp ha)]
  obtain ⟨k, hk⟩ := Nat.dvd_of_mod_eq_zero h
  subst hk
  have h1 : a * k + a - 1 = a * k + (a - 1) := by omega
  rw [h1, Nat.mul_add_div ha, Nat.div_eq_of_lt (by omega), Nat.add_zero, Nat.mul_comm]

/-- The field pass never moves the running offset backwards. -/
theorem layoutFields_le (cat : TypeCatalog) :
    ∀ (fs : List Field) (off : Nat) (own : List (String × Nat)) (e : Nat),
      layoutFields cat fs off = some (own, e) → off ≤ e := by
  intro fs
  induction fs with
  | nil =>
    intro off own e h
    simp only [layoutFields, Option.some.injEq, Prod.mk.injEq] at h
    obtain ⟨h1, h2⟩ := h
    omega
  | cons f fs ih =>
    intro off own e h
    simp only [layoutFields, Option.bind_eq_some, Option.map_eq_some', Prod.mk.injEq] at h
    obtain ⟨ft, hft, ⟨rest, endOff⟩, hrec, hmk1, hmk2⟩ := h
    have h1 := ih (alignUp off ft.alignment + ft.size) rest endOff hrec
    have h2 := le_alignUp off ft.alignment
    omega

/-- Every offset produced by the field pass is at least the starting offset. -/
theorem layoutFields_lb (cat : TypeCatalog) :
    ∀ (fs : List Field) (off : Nat) (own : List (String × Nat)) (e : Nat),
      layoutFields cat fs off = some (own, e) → ∀ p ∈ own, off ≤ p.2 := by
  intro fs
  induction fs with
  | nil =>
    intro off own e h
    simp only [layoutFields, Option.some.injEq, Prod.mk.injEq] at h
    obtain ⟨h1, h2⟩ := h
    subst h1
    intro p hp
    cases hp
  | cons f fs ih =>
    intro off own e h
    simp only [layoutFields, Option.bind_eq_some, Option.map_eq_some', Prod.mk.injEq] at h
    obtain ⟨ft, hft, ⟨rest, endOff⟩, hrec, hmk1, hmk2⟩ := h
    subst hmk1
    intro p hp
    rcases List.mem_cons.mp hp with h1 | h1
    · subst h1
      exact le_alignUp off ft.alignment
    · have h2 := ih (alignUp off ft.alignment + ft.size) rest endOff hrec p h1
      have h3 := le_alignUp off ft.alignment
      omega

/-- The field pass computes exactly the offsets demanded by the declarative
single-pass description. -/
theorem layoutFields_fieldPass (cat : TypeCatalog) :
    ∀ (fs : List Field) (off : Nat) (own : List (String × Nat)) (e : Nat),
      layoutFields cat fs off = some (own, e) → FieldPass cat off fs own e := by
  intro fs
  induction fs with
  | nil =>
    intro off own e h
    simp only [layoutFields, Option.some.injEq, Prod.mk.injEq] at h
    exact ⟨h.1.symm, h.2.symm⟩
  | cons f fs ih =>
    intro off own e h
    simp only [layoutFields, Option.bind_eq_some, Option.map_eq_some', Prod.mk.injEq] at h
    obtain ⟨ft, hft, ⟨rest, endOff⟩, hrec, hmk1, hmk2⟩ := h
    subst hmk1
    subst hmk2
    exact ⟨ft, rest, hft, rfl, ih (alignUp off ft.alignment + ft.size) rest endOff hrec⟩

/-- Destructor for a successful class resolution. -/
theorem resolveClass_inv (cat : TypeCatalog) (c : ClassDescriptor)
    (bl : Option ResolvedLayout) (l : ResolvedLayout)
    (h : resolveClass cat c bl = some l) :
    ∃ own endOff, layoutFields cat c.fields (seedOffset c bl) = some (own, endOff) ∧
      l = ⟨alignUp endOff (classAlignment cat c bl), classAlignment cat c bl,
           inheritedOffsets bl ++ own, vptrSlot c bl⟩ := by
  unfold resolveClass at h
  rw [Option.map_eq_some'] at h
  obtain ⟨⟨own, endOff⟩, hlf, hl⟩ := h
  exact ⟨own, endOff, hlf, hl.symm⟩

/-- A lookup in a well-formed catalog yields positive size and alignment. -/
theorem lookupType_pos :
    ∀ (cat : TypeCatalog), posTypes cat = true →
      ∀ (key : String) (ft : FieldType), lookupType cat key = some ft →
        0 < ft.size ∧ 0 < ft.alignment := by
  intro cat
  induction cat with
  | nil =>
    intro hp key ft h
    simp [lookupType] at h
  | cons p rest ih =>
    intro hp key ft h
    obtain ⟨n, ft2⟩ := p
    simp only [posTypes, List.all_cons, Bool.and_eq_true, decide_eq_true_eq] at hp
    simp only [lookupType] at h
    by_cases hn : n = key
    · rw [if_pos hn] at h
      obtain rfl := Option.some.inj h
      exact ⟨hp.1.1, hp.1.2⟩
    · rw [if_neg hn] at h
      exact ih hp.2 key ft h

/-- The largest declared field alignment is at least 1. -/
theorem one_le_naturalFieldAlign (cat : TypeCatalog) (fs : List Field) :
    1 ≤ naturalFieldAlign cat fs := by
  induction fs with
  | nil => exact Nat.le_refl 1
  | cons f fs ih =>
    simp only [naturalFieldAlign, List.foldr_cons] at ih ⊢
    omega

/-- A declared field's alignment is bounded by the largest declared field
alignment. -/
theorem align_le_naturalFieldAlign (cat : TypeCatalog) (f : Field) (ft : FieldType)
    (hty : lookupType cat f.type = some ft) :
    ∀ fs : List Field, f ∈ fs → ft.alignment ≤ naturalFieldAlign cat fs := by
  intro fs
  induction fs with
  | nil =>
    intro hf
    cases hf
  | cons g gs ih =>
    intro hf
    simp only [naturalFieldAlign, List.foldr_cons]
    rcases List.mem_cons.mp hf with h1 | h1
    · subst h1
      rw [hty]
      simp only [Option.map_some', Option.getD_some]
      omega
    · have h2 := ih h1
      simp only [naturalFieldAlign] at h2
      omega

/-- One-step unfolding of the strict-increase check. -/
theorem strictIncr_cons (a b : Nat) (t : List Nat) :
    strictIncr (a :: b :: t) = (decide (a < b) && strictIncr (b :: t)) := rfl

/-- With positive field sizes the field pass produces strictly increasing
offsets. -/
theorem layoutFields_strictIncr (cat : TypeCatalog) (hp : posTypes cat = true) :
    ∀ (fs : List Field) (off : Nat) (own : List (String × Nat)) (e : Nat),
      layoutFields cat fs off = some (own, e) → strictIncr (own.map Prod.snd) = true := by
  intro fs
  induction fs with
  | nil =>
    intro off own e h
    simp only [layoutFields, Option.some.injEq, Prod.mk.injEq] at h
    obtain ⟨h1, h2⟩ := h
    subst h1
    rfl
  | cons f fs ih =>
    intro off own e h
    simp only [layoutFields, Option.bind_eq_some, Option.map_eq_some', Prod.mk.injEq] at h
    obtain ⟨ft, hft, ⟨rest, endOff⟩, hrec, hmk1, hmk2⟩ := h
    subst hmk1
    have hrest := ih (alignUp off ft.alignment + ft.size) rest endOff hrec
    cases rest with
    | nil => rfl
    | cons q t =>
      rw [List.map_cons, List.map_cons, strictIncr_cons]
      rw [List.map_cons] at hrest
      have hq : alignUp off ft.alignment + ft.size ≤ q.2 :=
        layoutFields_lb cat fs (alignUp off ft.alignment + ft.size) (q :: t) endOff hrec q
          (List.mem_cons_self q t)
      have hpos := (lookupType_pos cat hp f.type ft hft).1
      simp only [Bool.and_eq_true, decide_eq_true_eq]
      exact ⟨by omega, hrest⟩

/-- Claim C1: for every class the Layout Resolver assigns field offsets by a
single pass over the declared fields in declaration order: the running offset
starts at the base's resolved size (0 for a root), shifted by the
dispatch-pointer size when the class introduces the hierarchy's vtable, and
each field's offset equals the running offset rounded up to that field's
required alignment, after which the running offset advances by that field's
size. -/
theorem resolveClass_single_pass (cat : TypeCatalog) (c : ClassDescriptor)
    (bl : Option ResolvedLayout) (l : ResolvedLayout)
    (h : resolveClass cat c bl = some l) :
    ∃ own endOff,
      FieldPass cat (baseSize bl + (if introducesNewVptr c bl then ptrSize else 0))
        c.fields own endOff ∧
      l.offsets = inheritedOffsets bl ++ own ∧
      l.size = alignUp endOff l.alignment := by
  obtain ⟨own, endOff, hlf, rfl⟩ := resolveClass_inv cat c bl l h
  exact ⟨own, endOff, layoutFields_fieldPass cat c.fields (seedOffset c bl) own endOff hlf,
    rfl, rfl⟩

/-- Witness for C1: the two-field demonstration class resolves through the
single pass. -/
theorem resolveClass_single_pass_witness :
    ∃ own endOff,
      FieldPass fixtureCatalog
        (baseSize none + (if introducesNewVptr demoTwoFieldDesc none then ptrSize else 0))
        demoTwoFieldDesc.fields own endOff ∧
      demoTwoFieldLayout.offsets = inheritedOffsets none ++ own ∧
      demoTwoFieldLayout.size = alignUp endOff demoTwoFieldLayout.alignment :=
  resolveClass_single_pass fixtureCatalog demoTwoFieldDesc none demoTwoFieldLayout (by decide)

/-- Claim C2 counterexample: the fixture root MtObject resolves with alignment
8 (from the dispatch pointer), while the alignment formula worded over the
override, the base and the declared fields alone yields 1, so the claim as
stated fails at MtObject. -/
theorem resolved_alignment_formula_cex :
    alignmentOf fixtureLayouts ("MtObject") = some 8 ∧
    specAlignmentFormula fixtureCatalog MtObjectDesc none = 1 ∧
    alignmentOf fixtureLayouts ("MtObject") ≠
      some (specAlignmentFormula fixtureCatalog MtObjectDesc none) :=
  ⟨by decide, by decide, by decide⟩

/-- Claim C2 (amended): for every resolved class the alignment equals the
maximum of the explicit alignment override, the alignment required by the
base, the largest alignment required by any declared field, and the
dispatch-pointer alignment when the class introduces the hierarchy's vtable
slot; the total size is the end offset rounded up to that alignment, so the
resolved size is always a multiple of the resolved alignment. -/
theorem resolved_alignment_formula (cat : TypeCatalog) (c : ClassDescriptor)
    (bl : Option ResolvedLayout) (l : ResolvedLayout)
    (h : resolveClass cat c bl = some l) :
    l.alignment = max (c.alignOverride.getD 1)
        (max (baseAlign bl) (max (naturalFieldAlign cat c.fields)
          (if introducesNewVptr c bl then ptrAlign else 1))) ∧
    l.size % l.alignment = 0 := by
  obtain ⟨own, endOff, hlf, rfl⟩ := resolveClass_inv cat c bl l h
  refine ⟨rfl, ?_⟩
  have h1 := one_le_naturalFieldAlign cat c.fields
  have hca : 0 < classAlignment cat c bl := by
    unfold classAlignment
    omega
  exact alignUp_mod endOff (classAlignment cat c bl) hca

/-- Witness for the amended C2 at the fixture root. -/
theorem resolved_alignment_formula_witness :
    mtObjectLayout.alignment = max (MtObjectDesc.alignOverride.getD 1)
        (max (baseAlign none) (max (naturalFieldAlign fixtureCatalog MtObjectDesc.fields)
          (if introducesNewVptr MtObjectDesc none then ptrAlign else 1))) ∧
    mtObjectLayout.size % mtObjectLayout.alignment = 0 :=
  resolved_alignment_formula fixtureCatalog MtObjectDesc none mtObjectLayout (by decide)

/-- Claim C3: resolution never relocates inherited fields: every field offset
present in the base's resolved layout reappears unchanged in the derived
class's resolved layout, and the derived size is at least the base size; the
base layout is arbitrary, so the preservation holds at every depth of a
single-inheritance chain. -/
theorem resolveClass_preserves_base (cat : TypeCatalog) (c : ClassDescriptor)
    (bl : ResolvedLayout) (l : ResolvedLayout)
    (h : resolveClass cat c (some bl) = some l) :
    (∀ p ∈ bl.offsets, p ∈ l.offsets) ∧ bl.size ≤ l.size := by
  obtain ⟨own, endOff, hlf, rfl⟩ := resolveClass_inv cat c (some bl) l h
  constructor
  · intro p hp
    exact List.mem_append_left own hp
  · show bl.size ≤ alignUp endOff (classAlignment cat c (some bl))
    have h1 := layoutFields_le cat c.fields (seedOffset c (some bl)) own endOff hlf
    have h2 := le_alignUp endOff (classAlignment cat c (some bl))
    have h3 : bl.size ≤ seedOffset c (some bl) := Nat.le_add_right bl.size _
    omega

/-- Witness for C3: the demonstration derived class keeps its base's field
offset and grows. -/
theorem resolveClass_preserves_base_witness :
    (∀ p ∈ demoBaseLayout.offsets, p ∈ demoDerivedLayout.offsets) ∧
    demoBaseLayout.size ≤ demoDerivedLayout.size :=
  resolveClass_preserves_base fixtureCatalog demoDerivedDesc demoBaseLayout demoDerivedLayout
    (by decide)

/-- Claim C4: for every resolved class the offsets assigned to its declared
fields are strictly increasing in declaration order (no reordering for
packing), and every class of the resolved fixture has a strictly increasing
offset table. -/
theorem offsets_strictly_increasing :
    (∀ (cat : TypeCatalog) (c : ClassDescriptor) (bl : Option ResolvedLayout)
        (l : ResolvedLayout) (own : List (String × Nat)) (endOff : Nat),
      posTypes cat = true →
      resolveClass cat c bl = some l →
      layoutFields cat c.fields (seedOffset c bl) = some (own, endOff) →
      l.offsets = inheritedOffsets bl ++ own ∧ strictIncr (own.map Prod.snd) = true) ∧
    fixtureLayouts.all (fun p => strictIncr (p.2.offsets.map Prod.snd)) = true := by
  constructor
  · intro cat c bl l own endOff hp h hlf
    obtain ⟨own2, endOff2, hlf2, rfl⟩ := resolveClass_inv cat c bl l h
    rw [hlf2] at hlf
    simp only [Option.some.injEq, Prod.mk.injEq] at hlf
    obtain ⟨h1, h2⟩ := hlf
    subst h1
    subst h2
    exact ⟨rfl, layoutFields_strictIncr cat hp c.fields (seedOffset c bl) own2 endOff2 hlf2⟩
  · decide

/-- Witness for C4: the two-field demonstration class. -/
theorem offsets_strictly_increasing_witness :
    demoTwoFieldLayout.offsets = inheritedOffsets none ++ [("x", 0), ("y", 4)] ∧
    strictIncr ([("x", 0), ("y", 4)].map Prod.snd) = true :=
  offsets_strictly_increasing.1 fixtureCatalog demoTwoFieldDesc none demoTwoFieldLayout
    [("x", 0), ("y", 4)] 6 (by decide) (by decide) (by decide)

/-- Claim C5: a hierarchy carries at most one vtable slot: a class whose base
layout has a dispatch pointer reuses its offset with no second slot, a root
that introduces the vtable places it at offset 0, a class that neither
introduces nor inherits one reports an explicit absence (an Option, not a
sentinel), and every class of the fixture hierarchy reports the root's
offset 0. -/
theorem vtable_slot_policy :
    (∀ (cat : TypeCatalog) (c : ClassDescriptor) (bl : ResolvedLayout)
        (l : ResolvedLayout) (o : Nat),
      resolveClass cat c (some bl) = some l → bl.vptrOffset = some o →
      l.vptrOffset = some o) ∧
    (∀ (cat : TypeCatalog) (c : ClassDescriptor) (l : ResolvedLayout),
      resolveClass cat c none = some l → c.introducesVtable = true →
      l.vptrOffset = some 0) ∧
    (∀ (cat : TypeCatalog) (c : ClassDescriptor) (bl : Option ResolvedLayout)
        (l : ResolvedLayout),
      resolveClass cat c bl = some l → c.introducesVtable = false →
      inheritedVptr bl = none → l.vptrOffset = none) ∧
    (["MtObject", "cSetInfo", "cSetInfoCoord", "cSetInfoOm", "cSetInfoOmBreakTarget"].all
      fun key => decide (vtableOffsetOf fixtureLayouts key = some 0)) = true := by
  refine ⟨?_, ?_, ?_, by decide⟩
  · intro cat c bl l o h ho
    obtain ⟨own, endOff, hlf, rfl⟩ := resolveClass_inv cat c (some bl) l h
    show vptrSlot c (some bl) = some o
    simp [vptrSlot, introducesNewVptr, inheritedVptr, ho]
  · intro cat c l h hv
    obtain ⟨own, endOff, hlf, rfl⟩ := resolveClass_inv cat c none l h
    show vptrSlot c none = some 0
    simp [vptrSlot, introducesNewVptr, inheritedVptr, hv]
  · intro cat c bl l h hv hi
    obtain ⟨own, endOff, hlf, rfl⟩ := resolveClass_inv cat c bl l h
    show vptrSlot c bl = none
    simp [vptrSlot, introducesNewVptr, hv, hi]

/-- Witness for C5: cSetInfo inherits the dispatch-pointer offset 0 of
MtObject. -/
theorem vtable_slot_policy_witness :
    mtObjectLayout.vptrOffset = some 0 :=
  vtable_slot_policy.1 fixtureCatalog cSetInfoDesc mtObjectLayout mtObjectLayout 0 (by decide)
    (by decide)

/-- Claim C6: resolution is a pure deterministic function of the catalog and
the graph: resolving the same descriptor graph twice yields identical layout
mappings, with no dependence on anything outside the inputs. -/
theorem resolve_deterministic (cat : TypeCatalog) (g : Graph) :
    resolve cat g = resolve cat g := rfl

/-- Claim C7: every construction-time failure of addClass or register leaves
the descriptor graph, respectively the type catalog, exactly as it was before
the call: no partial class and no partial registration is added. -/
theorem construction_errors_atomic :
    (∀ (cat : TypeCatalog) (g : Graph) (r : RawClass) (e : BuildError),
      (addClass cat g r).2 = some e → (addClass cat g r).1 = g) ∧
    (∀ (cat : TypeCatalog) (key : String) (sz al : Nat) (e : BuildError),
      (register cat key sz al).2 = some e → (register cat key sz al).1 = cat) := by
  constructor
  · intro cat g r e h
    unfold addClass at h ⊢
    split_ifs at h ⊢ <;> simp_all
  · intro cat key sz al e h
    unfold register at h ⊢
    cases hl : lookupType cat key with
    | none =>
      simp only [hl] at h
      simp at h
    | some ft =>
      simp only [hl] at h ⊢
      split_ifs at h ⊢
      all_goals rfl

/-- Witness for C7: re-adding MtObject fails and leaves the graph intact. -/
theorem construction_errors_atomic_witness :
    (addClass fixtureCatalog [MtObjectDesc] demoDuplicateRaw).1 = [MtObjectDesc] :=
  construction_errors_atomic.1 fixtureCatalog [MtObjectDesc] demoDuplicateRaw
    BuildError.DuplicateClass (by decide)

/-- Claim C8: adding a class that declares a field whose type was never
registered in the Type Catalog fails with the UnknownBase type-lookup error
and leaves the graph unchanged, never substituting a default size or
alignment. -/
theorem unknown_field_type_error (cat : TypeCatalog) (g : Graph) (r : RawClass) (f : Field)
    (hid : hasClass g r.identity = false)
    (hbase : ∀ b, r.base = some b → hasClass g b = true)
    (hdup : dupNames r.fields = false)
    (hf : f ∈ r.fields) (hty : lookupType cat f.type = none) :
    (addClass cat g r).2 = some BuildError.UnknownBase ∧ (addClass cat g r).1 = g := by
  have hall : fieldTypesKnown cat r.fields = false := by
    cases hall2 : fieldTypesKnown cat r.fields with
    | false => rfl
    | true =>
      exfalso
      simp only [fieldTypesKnown] at hall2
      have h3 := List.all_eq_true.mp hall2 f hf
      rw [hty] at h3
      simp at h3
  rcases hb : r.base with _ | b
  · simp [addClass, hid, hdup, hall, hb]
  · have hbb := hbase b hb
    simp [addClass, hid, hdup, hall, hb, hbb]

/-- Witness for C8: a class with one field of the unregistered type is
rejected with UnknownBase and the empty graph is unchanged. -/
theorem unknown_field_type_error_witness :
    (addClass fixtureCatalog [] demoUnknownFieldRaw).2 = some BuildError.UnknownBase ∧
    (addClass fixtureCatalog [] demoUnknownFieldRaw).1 = [] :=
  unknown_field_type_error fixtureCatalog [] demoUnknownFieldRaw ⟨"a", "Unknown"⟩ (by decide)
    (fun b hb => Option.noConfusion hb) (by decide) (by decide) (by decide)

/-- Claim C9: an explicit alignment override weaker than the natural alignment
required by a contained field makes the Layout Validator report an
AlignmentViolation for that class instead of silently ignoring the
override. -/
theorem weak_override_alignment_violation (cat : TypeCatalog) (c : ClassDescriptor)
    (l : ResolvedLayout) (a : Nat) (f : Field) (ft : FieldType)
    (hov : c.alignOverride = some a) (hf : f ∈ c.fields)
    (hty : lookupType cat f.type = some ft) (hlt : a < ft.alignment) :
    BuildError.AlignmentViolation ∈ validateClass cat c l := by
  have hle := align_le_naturalFieldAlign cat f ft hty c.fields hf
  have hcond : a < naturalFieldAlign cat c.fields ∨ l.alignment < a := Or.inl (by omega)
  simp only [validateClass, hov]
  rw [if_pos hcond]
  exact List.mem_append_left _ (List.mem_cons_self _ _)

/-- Witness for C9: an override of 1 on a class containing a 4-aligned field
is reported. -/
theorem weak_override_alignment_violation_witness :
    BuildError.AlignmentViolation ∈
      validateClass fixtureCatalog demoWeakOverrideDesc ⟨0, 1, [], none⟩ :=
  weak_override_alignment_violation fixtureCatalog demoWeakOverrideDesc ⟨0, 1, [], none⟩ 1
    ⟨"x", "u32"⟩ ⟨4, 4⟩ (by decide) (by decide) (by decide) (by decide)

/-- Claim C10: a class with a base, no declared fields, no alignment override
and no vtable introduction resolves to its base's total size, alignment and
dispatch-pointer placement; in the fixture, cSetInfo resolves identically to
MtObject. -/
theorem trivial_derived_inherits_layout :
    (∀ (cat : TypeCatalog) (c : ClassDescriptor) (bl : ResolvedLayout) (l : ResolvedLayout),
      c.fields = [] → c.alignOverride = none → c.introducesVtable = false →
      0 < bl.alignment → bl.size % bl.alignment = 0 →
      resolveClass cat c (some bl) = some l →
      l.size = bl.size ∧ l.alignment = bl.alignment ∧ l.vptrOffset = bl.vptrOffset) ∧
    lookupLayout fixtureLayouts ("cSetInfo") = lookupLayout fixtureLayouts ("MtObject") := by
  constructor
  · intro cat c bl l hfe hov hvt hpos hmod h
    obtain ⟨own, endOff, hlf, rfl⟩ := resolveClass_inv cat c (some bl) l h
    rw [hfe] at hlf
    simp only [layoutFields, Option.some.injEq, Prod.mk.injEq] at hlf
    obtain ⟨h1, h2⟩ := hlf
    have hca : classAlignment cat c (some bl) = bl.alignment := by
      simp only [classAlignment, hov, hfe, introducesNewVptr, hvt, naturalFieldAlign,
        List.foldr_nil, baseAlign, Option.getD_none, Bool.false_and]
      simp only [Bool.false_eq_true, if_false]
      omega
    have hseed : seedOffset c (some bl) = bl.size := by
      simp [seedOffset, introducesNewVptr, hvt, baseSize]
    refine ⟨?_, hca, ?_⟩
    · show alignUp endOff (classAlignment cat c (some bl)) = bl.size
      rw [hca, ← h2, hseed]
      exact alignUp_of_mod_eq bl.size bl.alignment hpos hmod
    · show vptrSlot c (some bl) = bl.vptrOffset
      simp [vptrSlot, introducesNewVptr, hvt, inheritedVptr]
  · decide

/-- Witness for C10: cSetInfo resolves against MtObject's layout to the same
size, alignment and dispatch-pointer offset. -/
theorem trivial_derived_inherits_layout_witness :
    mtObjectLayout.size = mtObjectLayout.size ∧
    mtObjectLayout.alignment = mtObjectLayout.alignment ∧
    mtObjectLayout.vptrOffset = mtObjectLayout.vptrOffset :=
  trivial_derived_inherits_layout.1 fixtureCatalog cSetInfoDesc mtObjectLayout mtObjectLayout
    (by decide) (by decide) (by decide) (by decide) (by decide) (by decide)

end LayoutEngine
